import Mathlib

/-!
# Verification of the limmat configuration, git plumbing and status tracker

Shallow embedding of `src/config.rs`, `src/git.rs` and `src/status.rs` of the
limmat repository, together with theorems settling the specification claims
about them.

Modelling conventions:
* Rust machine integers are `Nat`/`Int`; byte values are `Nat` (mod 256 where
  it matters).
* Fallible Rust functions (`anyhow::Result`, `bail!`) return `Except` or a
  three-valued `ParseResult` that distinguishes an error return from a panic.
* The SHA3-256 digest is never computed: every statement about `config_hash`
  is a statement about the byte stream fed to the digest, which determines the
  digest. `hexDigest` below is a computable injective stand-in.
* `HashMap`/`HashSet` are modelled as association lists / lists with explicit
  duplicate checks matching the source's own checks.
-/

namespace Limmat

/-- `Resource` (config.rs 29-38): a user resource declaration, either the bare
shorthand, a named count, or explicitly listed token values. -/
inductive Resource where
  | bare (name : String)
  | counted (name : String) (count : Nat)
  | explicit (name : String) (tokens : List String)
deriving DecidableEq, Repr

/-- `Resource::name` (config.rs 41-47). -/
def Resource.name : Resource → String
  | .bare n => n
  | .counted n _ => n
  | .explicit n _ => n

/-- `Resource::count` (config.rs 49-55): 1 for the bare form, the declared
count, or the number of explicit tokens. -/
def Resource.count : Resource → Nat
  | .bare _ => 1
  | .counted _ c => c
  | .explicit _ t => t.length

/-- `Command` (config.rs 61-64): a shell string or an explicit argv vector. -/
inductive Command where
  | shell (cmd : String)
  | raw (args : List String)
deriving DecidableEq, Repr

/-- `Command::program` (config.rs 67-72). For `Raw`, the source indexes
`args[0]`, which panics on an empty vector; the panic is modelled as `none`. -/
def Command.program : Command → Option String
  | .shell _ => some "bash"
  | .raw args => args.head?

/-- `Command::args` (config.rs 74-79). For `Raw`, the source slices
`args[1..]`, which panics when the vector is empty; modelled as `none`. -/
def Command.args : Command → Option (List String)
  | .shell cmd => some ["-c", cmd]
  | .raw args => if args.isEmpty then none else some (args.drop 1)

/-- Modelled from the spec: `CachePolicy` is declared in test.rs, which is not
under src/. §3: one of NoCache, ByCommit, ByTree. Here it only matters as a
hashed field of the test config. -/
inductive CachePolicy where
  | noCache
  | byCommit
  | byTree
deriving DecidableEq, Repr

/-- Modelled from the spec: `ResourceKey` is declared in resource.rs, which is
not under src/. §4.2: either `Worktree` or `UserToken(name)`. -/
inductive ResourceKey where
  | worktree
  | userToken (name : String)
deriving DecidableEq, BEq, Repr

/-- `Test` (config.rs 84-116): one test's raw configuration, with the exact
field order of the Rust struct (the order `derive(Hash)` hashes them in).
`ExitCode` (from test.rs, not under src/) is modelled as `Int`. -/
structure Test where
  name : String
  command : Command
  requires_worktree : Bool
  run_by_default : Bool
  resources : Option (List Resource)
  shutdown_grace_period_s : Nat
  cache : CachePolicy
  depends_on : List String
  error_exit_codes : List Int
  separate_outputs : Bool
deriving DecidableEq, Repr

/-- The test's resource list, `self.resources.as_ref().unwrap_or(&vec![])`. -/
def Test.resourceList (t : Test) : List Resource :=
  t.resources.getD []

/-- The names of the test's declared resource references. -/
def Test.resourceNames (t : Test) : List String :=
  t.resourceList.map Resource.name

/-- The `needs_resources` map built in `Test::parse` (config.rs 156-165): one
`UserToken` entry per listed resource with its count, plus a `Worktree` entry
when `requires_worktree` is set. Modelled as an association list (the source
uses a `HashMap`; duplicate names are rejected before this map is built). -/
def Test.needsResources (t : Test) : List (ResourceKey × Nat) :=
  t.resourceList.map (fun r => (ResourceKey.userToken r.name, r.count))
    ++ (if t.requires_worktree then [(ResourceKey.worktree, 1)] else [])

/-! ## Hashing (config.rs 167-181, util.rs `DigestHasher`)

`Test::parse` feeds `self` (via `derive(Hash)`) and then each dependency's
`config_hash` string into a SHA3-256 digest through `DigestHasher`, whose
`write` appends the bytes to the digest input. We model the byte stream that
reaches the digest. -/

/-- Bytes a Rust `String`/`str` contributes to a `Hasher`: its UTF-8 bytes
followed by the `0xFF` terminator byte. Characters are modelled by their code
points (identical to UTF-8 for ASCII configuration files). -/
def encodeStr (s : String) : List Nat :=
  s.data.map Char.toNat ++ [255]

/-- Little-endian byte encoding of a `u64`/`usize` value. -/
def encodeU64 (n : Nat) : List Nat :=
  (List.range 8).map (fun i => n / 256 ^ i % 256)

/-- One byte for a `bool`. -/
def encodeBool (b : Bool) : List Nat :=
  [if b then 1 else 0]

/-- Little-endian byte encoding of an `i32` exit code, two's complement. -/
def encodeI32 (n : Int) : List Nat :=
  (List.range 4).map (fun i => (n % 2 ^ 32).toNat / 256 ^ i % 256)

/-- A Rust `Vec`/slice hashes as a length prefix followed by the elements. -/
def encodeList (f : α → List Nat) (l : List α) : List Nat :=
  encodeU64 l.length ++ (l.map f).flatten

/-- A Rust `Option` hashes as a discriminant then the payload. -/
def encodeOption (f : α → List Nat) : Option α → List Nat
  | none => [0]
  | some a => 1 :: f a

/-- Hash bytes of a `Command` value: discriminant then payload. -/
def Command.encode : Command → List Nat
  | .shell cmd => 0 :: encodeStr cmd
  | .raw args => 1 :: encodeList encodeStr args

/-- Hash bytes of a `Resource` value: discriminant then fields in order. -/
def Resource.encode : Resource → List Nat
  | .bare n => 0 :: encodeStr n
  | .counted n c => 1 :: (encodeStr n ++ encodeU64 c)
  | .explicit n t => 2 :: (encodeStr n ++ encodeList encodeStr t)

/-- Hash bytes of a `CachePolicy` value: its discriminant. -/
def CachePolicy.encode : CachePolicy → List Nat
  | .noCache => [0]
  | .byCommit => [1]
  | .byTree => [2]

/-- The bytes `self.hash(&mut hasher)` feeds to the digest for a `Test`:
`derive(Hash)` hashes every field in declaration order (config.rs 84-116). -/
def testFieldBytes (t : Test) : List Nat :=
  encodeStr t.name
    ++ t.command.encode
    ++ encodeBool t.requires_worktree
    ++ encodeBool t.run_by_default
    ++ encodeOption (encodeList Resource.encode) t.resources
    ++ encodeU64 t.shutdown_grace_period_s
    ++ t.cache.encode
    ++ encodeList encodeStr t.depends_on
    ++ encodeList encodeI32 t.error_exit_codes
    ++ encodeBool t.separate_outputs

/-- The byte stream fed to the SHA3-256 digest in `Test::parse` (config.rs
167-180): first the test's own fields, then — looping over `depends_on` in its
declaration order — each dependency's already-computed `config_hash` string.
`depHash` gives each dependency's `config_hash`. -/
def configHashInput (t : Test) (depHash : String → String) : List Nat :=
  t.depends_on.foldl (fun st dep => st ++ encodeStr (depHash dep)) (testFieldBytes t)

/-- Lexicographic order on code-point lists. -/
def natListLt : List Nat → List Nat → Bool
  | [], [] => false
  | [], _ :: _ => true
  | _ :: _, [] => false
  | x :: xs, y :: ys => if x < y then true else if y < x then false else natListLt xs ys

/-- Lexicographic (byte) order on strings, the order "name-sorted" refers to. -/
def strLess (a b : String) : Bool :=
  natListLt (a.data.map Char.toNat) (b.data.map Char.toNat)

/-- Insert a string into an already name-sorted list. -/
def sortedInsert (s : String) : List String → List String
  | [] => [s]
  | t :: ts => if strLess t s then t :: sortedInsert s ts else s :: t :: ts

/-- Sort strings lexicographically (insertion sort). -/
def sortStrings (l : List String) : List String :=
  l.foldr sortedInsert []

/-- The digest input stream as the specification words it: the test's canonical
field bytes, then each dependency's `config_hash` in dependency-name-sorted
order. Written from the spec for comparison with `configHashInput`. -/
def specConfigHashInput (t : Test) (depHash : String → String) : List Nat :=
  testFieldBytes t ++ ((sortStrings t.depends_on).map (fun d => encodeStr (depHash d))).flatten

/-- Computable injective stand-in for `hex::encode(digest.finalize())`: claims
never depend on actual SHA3-256 digest values, only on the digest's input
stream, which this renders verbatim. -/
def hexDigest (stream : List Nat) : String :=
  String.intercalate "," (stream.map toString)

/-! ## Test::parse (config.rs 143-201) -/

/-- Result of a fallible Rust function that can also panic: `error` models a
`bail!` return, `panic` models an actual panic (index out of bounds, a failed
`unwrap`). -/
inductive ParseResult (α : Type) where
  | ok (val : α)
  | error (msg : String)
  | panic
deriving DecidableEq, Repr

/-- `test::Test` (declared in test.rs, not under src/): the parsed test as
constructed at config.rs 188-199; field set taken from that constructor. -/
structure ParsedTest where
  name : String
  program : String
  args : List String
  needs_resources : List (ResourceKey × Nat)
  shutdown_grace_period_s : Nat
  cache_policy : CachePolicy
  config_hash : String
  depends_on : List String
  error_exit_codes : List Int
  separate_outputs : Bool
deriving DecidableEq, Repr

/-- `Test::parse` (config.rs 147-200). In source order: the duplicate resource
check bails; hashing looks up every dependency in the already-parsed DAG with
`.unwrap()` (a missing dependency panics); `error_exit_codes` containing 0
bails; constructing the result calls `Command::program`/`Command::args`, which
panic on an empty Raw argv. `deps` maps a dependency name to its
already-computed `config_hash` (`none` when absent from the parsed DAG). -/
def Test.parse (t : Test) (deps : String → Option String) : ParseResult ParsedTest :=
  if ¬ t.resourceNames.Nodup then .error "duplicate resource reference"
  else if t.depends_on.any (fun d => (deps d).isNone) then .panic
  else
    let config_hash := hexDigest (configHashInput t (fun d => (deps d).getD ""))
    if 0 ∈ t.error_exit_codes then .error "error_exit_codes must not contain 0"
    else
      match t.command.program, t.command.args with
      | some program, some args =>
        .ok { name := t.name
              program := program
              args := args
              needs_resources := t.needsResources
              shutdown_grace_period_s := t.shutdown_grace_period_s
              cache_policy := t.cache
              config_hash := config_hash
              depends_on := t.depends_on
              error_exit_codes := t.error_exit_codes
              separate_outputs := t.separate_outputs }
      | _, _ => .panic

/-! ## Config (config.rs 215-321) -/

/-- `Config` (config.rs 217-224). -/
structure Config where
  num_worktrees : Nat
  resources : Option (List Resource)
  tests : List Test
deriving DecidableEq, Repr

/-- `Config::parse_resource_tokens` (config.rs 233-250): for every declared
resource, the pool key `UserToken(name)` maps to the explicit token list, or to
the auto-numbered `name-i` strings for `i` in `0..count`. -/
def Config.parseResourceTokens (cfg : Config) : List (ResourceKey × List String) :=
  (cfg.resources.getD []).map (fun r =>
    (ResourceKey.userToken r.name,
     match r with
     | .explicit _ tokens => tokens
     | _ => (List.range r.count).map (fun i => r.name ++ "-" ++ toString i)))

/-- Token values as the specification words them: exactly the explicitly
listed strings when tokens are given explicitly, otherwise the auto-numbered
strings name-0 through name-(n-1) where n is the declared count, which is 1
for the bare shorthand form. Written from the spec for comparison. -/
def specResourceTokens : Resource → List String
  | .explicit _ tokens => tokens
  | .counted name count => (List.range count).map (fun i => name ++ "-" ++ toString i)
  | .bare name => [name ++ "-0"]

/-- The test filter in `Config::parse_tests` (config.rs 273-282): with a
non-empty `only_tests` list a test must match one of its regexes; otherwise it
must have `run_by_default`; in either case it must not match any `skip_tests`
regex. Compiled regexes are modelled as predicates on the test name. -/
def testIncluded (onlyTests skipTests : List (String → Bool)) (t : Test) : Bool :=
  (if !onlyTests.isEmpty then onlyTests.any (fun r => r t.name) else t.run_by_default)
    && !(skipTests.any (fun r => r t.name))

/-- Whether every dependency of `t` already appears among the emitted tests. -/
def depsReady (emitted : List Test) (t : Test) : Bool :=
  t.depends_on.all (fun d => (emitted.map Test.name).contains d)

/-- Modelled from the spec: dag.rs is not under src/. §4.1: `bottom_up()`
enumerates a topological ordering, leaves first, insertion order as tie-break.
Each round emits, in order, every remaining test whose dependencies were all
already emitted; if a round makes no progress there is a cycle. `fuel` bounds
the rounds (at least one element is emitted per successful round). -/
def topoRounds : Nat → List Test → List Test → Option (List Test)
  | 0, emitted, remaining => if remaining.isEmpty then some emitted else none
  | fuel + 1, emitted, remaining =>
    if remaining.isEmpty then some emitted
    else if (remaining.filter (depsReady emitted)).isEmpty then none
    else
      topoRounds fuel (emitted ++ remaining.filter (depsReady emitted))
        (remaining.filter (fun t => !(depsReady emitted t)))

/-- Modelled from the spec: `Dag::new` (§4.1) fails with `Duplicate` on id
collision, `NoSuchChild` when a dependency name is absent, `Cycle` when no
topological order exists; on success `bottom_up()` yields a leaves-first
ordering of all the nodes. -/
def dagNew (tests : List Test) : ParseResult (List Test) :=
  if ¬ (tests.map Test.name).Nodup then .error "Duplicate"
  else if tests.any (fun t =>
      t.depends_on.any (fun d => !((tests.map Test.name).contains d))) then
    .error "NoSuchChild"
  else
    match topoRounds tests.length [] tests with
    | some order => .ok order
    | none => .error "Cycle"

/-- One step of the bottom-up `try_fold` of `Config::parse_tests` (config.rs
293-302): parse the next test, looking its dependencies' `config_hash` up
among the already-parsed tests, and append it. -/
def parseFoldStep (acc : ParseResult (List ParsedTest)) (t : Test) :
    ParseResult (List ParsedTest) :=
  match acc with
  | .ok parsed =>
    match t.parse (fun d => (parsed.find? (fun p => p.name == d)).map (·.config_hash)) with
    | .ok p => .ok (parsed ++ [p])
    | .error e => .error e
    | .panic => .panic
  | other => other

/-- The bottom-up `try_fold` of `Config::parse_tests` (config.rs 293-302). -/
def parseFold (order : List Test) : ParseResult (List ParsedTest) :=
  order.foldl parseFoldStep (.ok [])

/-- `Config::parse_tests` (config.rs 252-320): filter the tests, build the
DAG, parse bottom-up, then bail if any parsed test references a `UserToken`
resource key absent from `resource_tokens`. Regex compilation failures are
outside the model (filters are given as predicates). -/
def Config.parseTests (cfg : Config) (resourceTokens : List (ResourceKey × List String))
    (skipTests onlyTests : List (String → Bool)) : ParseResult (List ParsedTest) :=
  let filtered := cfg.tests.filter (testIncluded onlyTests skipTests)
  match dagNew filtered with
  | .error e => .error e
  | .panic => .panic
  | .ok order =>
    match parseFold order with
    | .error e => .error e
    | .panic => .panic
    | .ok parsed =>
      if parsed.any (fun p => p.needs_resources.any (fun kv =>
          match kv.1 with
          | ResourceKey.userToken _ => !(resourceTokens.any (fun rt => decide (rt.1 = kv.1)))
          | ResourceKey.worktree => false))
      then .error "undefined resource"
      else .ok parsed

/-! ## git.rs -/

/-- `CommitHash` (git.rs 77-84): a newtype over the hash string (the inner
`Hash` newtype is flattened). -/
structure CommitHash where
  hash : String
deriving DecidableEq, Repr

/-- Rust `str::lines`: split on newline, a trailing newline is a terminator
(it does not produce a final empty line), and one trailing carriage return is
stripped from each line. -/
def rustLines (s : String) : List String :=
  if s.isEmpty then []
  else
    let body := if s.endsWith "\n" then s.dropRight 1 else s
    (body.splitOn "\n").map (fun l => if l.endsWith "\r" then l.dropRight 1 else l)

/-- `Worktree::rev_list` (git.rs 304-330) as a function of the subprocess
outcome. `exitCode = none` models the child having been killed by a signal, on
which `code_not_killed` returns an error; exit code 128 is the "range does not
exist" sentinel returning the empty list; any other non-zero code bails; on 0
the stdout lines become commit hashes. `stdout` is assumed UTF-8 (the
non-UTF-8 bail is outside the claims). -/
def revList (exitCode : Option Int) (stdout : String) : Except String (List CommitHash) :=
  match exitCode with
  | none => .error "killed by signal"
  | some code =>
    if code = 128 then .ok []
    else if code ≠ 0 then .error "failed with exit code"
    else .ok ((rustLines stdout).map CommitHash.mk)

/-- The two things the select loop of `Worktree::watch_refs` (git.rs 441-456)
can wake up on: a filesystem event from the watcher channel, or the debounce
timer firing. -/
inductive WatchInput where
  | fsEvent
  | timerFire
deriving DecidableEq, Repr

/-- One iteration of the `watch_refs` select loop (git.rs 442-455). The state
is the debounce timer: `some d` means the sleep future is armed for `d`
seconds, `none` means the fuse is terminated. On a filesystem event the code
arms a 1-second sleep only if the fuse is terminated and emits nothing; when
the timer fires it re-resolves and yields (the fuse terminating again).
Returns the new timer state and whether the body yields a re-resolved range.
In real traces `timerFire` only occurs while the timer is armed: a terminated
fuse is never selected. -/
def watchStep (timer : Option Nat) : WatchInput → Option Nat × Bool
  | .fsEvent => (if timer.isNone then some 1 else timer, false)
  | .timerFire => (none, true)

/-- Folding step for a whole `watch_refs` trace: on a yielding iteration the
stream emits the next `rev_list` resolution (`resolve k` is the result of the
k-th `rev_list` call after the initial one, so the argument is the number of
elements already emitted). -/
def watchFold (resolve : Nat → List CommitHash) (acc : List (List CommitHash) × Option Nat)
    (inp : WatchInput) : List (List CommitHash) × Option Nat :=
  let next := watchStep acc.2 inp
  (if next.2 then acc.1 ++ [resolve acc.1.length] else acc.1, next.1)

/-- The `watch_refs` stream over a trace of wakeups (git.rs 424-457): it first
yields the initial `rev_list` resolution (`resolve 0`) with the timer fuse
starting out terminated, then runs the select loop. Returns the emitted
elements and the final timer state. -/
def watchRun (resolve : Nat → List CommitHash) (inputs : List WatchInput) :
    List (List CommitHash) × Option Nat :=
  inputs.foldl (watchFold resolve) ([resolve 0], none)

/-! ## status.rs -/

/-- `GRAPH_COMPONENT_REGEX` replacement (status.rs 26, 200): every commit-node
or diagonal character (asterisk, backslash, forward slash) is replaced by a
vertical bar. -/
def graphComponentReplace (s : String) : String :=
  String.mk (s.data.map (fun c =>
    if c = '*' ∨ c = '\\' ∨ c = '/' then '|' else c))

/-- The chunk-stretching step of `OutputBuffer::new` (status.rs 186-207),
acting on one graph chunk (first line `c`, rest `cs`; chunks are non-empty by
construction) and the per-commit info lines (already including the pushed
empty status line). If the info lines outnumber the graph lines, the deficit
is made up by inserting copies of the first line's connector topology at
index 1; otherwise the info lines are padded with empty strings. Returns the
adjusted (graph chunk, info lines). -/
def stretchChunk : List String → List String → List String × List String
  | [], info => ([], info)
  | c :: cs, info =>
    let deficit : Int := (info.length : Int) - (c :: cs).length
    if 0 < deficit then
      (c :: (List.replicate deficit.toNat (graphComponentReplace c) ++ cs), info)
    else
      (c :: cs, info ++ List.replicate (-deficit).toNat "")

/-- Terminal output atoms written by the tracker: the CPL (cursor previous
line) control sequence, the ED (erase display) control sequence, or one
buffer line (followed by a newline in the source). -/
inductive TermOut where
  | cpl (n : Nat)
  | ed
  | line (s : String)
deriving DecidableEq, Repr

/-- `OutputBuffer::render` (status.rs 227-261): writes every pre-rendered
buffer line, appending the rendered live status for lines that have one
(`statusFor i` abstracts the sorted status text looked up via
`status_commits`), and returns the number of lines written (`self.lines.len()`).
-/
def render (lines : List String) (statusFor : Nat → Option String) : List TermOut × Nat :=
  (lines.enum.map (fun p => TermOut.line (p.2 ++ ((statusFor p.1).getD ""))), lines.length)

/-- `Tracker::repaint` (status.rs 57-72): when the previously drawn line count
`linesToClear` is non-zero, emit CPL by that count then ED; then write the
fresh frame via `render`; the returned count (stored into `lines_to_clear`)
is `render`'s line count. -/
def repaint (linesToClear : Nat) (lines : List String) (statusFor : Nat → Option String) :
    List TermOut × Nat :=
  ((if linesToClear ≠ 0 then [TermOut.cpl linesToClear, TermOut.ed] else [])
      ++ (render lines statusFor).1,
   (render lines statusFor).2)

/-! ## Concrete instances used to evaluate the theorems on real inputs -/

/-- A test whose two dependencies are declared in non-alphabetical order. -/
def exTest1 : Test :=
  { name := "t", command := .raw ["x"], requires_worktree := true,
    run_by_default := true, resources := none, shutdown_grace_period_s := 60,
    cache := .byCommit, depends_on := ["b", "a"], error_exit_codes := [],
    separate_outputs := false }

/-- A concrete assignment of config hashes to dependency names. -/
def exDepHash1 (d : String) : String := d

/-- The same assignment, as the lookup into an already-parsed DAG. -/
def exDeps1 (d : String) : Option String := some d

/-- The parsed form of `exTest1` under `exDeps1`. -/
def exParsed1 : ParsedTest :=
  { name := "t", program := "x", args := [],
    needs_resources := [(ResourceKey.worktree, 1)],
    shutdown_grace_period_s := 60, cache_policy := .byCommit,
    config_hash := hexDigest (configHashInput exTest1 (fun d => (exDeps1 d).getD "")),
    depends_on := ["b", "a"], error_exit_codes := [], separate_outputs := false }

/-- A resolver for watch traces that never finds commits. -/
def constResolve (_k : Nat) : List CommitHash := []

/-- A dependency lookup over an empty parsed DAG. -/
def noDeps (_d : String) : Option String := none

/-- A status lookup with no live statuses. -/
def noStatus (_i : Nat) : Option String := none

/-- A non-default test referencing the undeclared user resource "r". -/
def c5Test : Test :=
  { name := "t", command := .raw ["x"], requires_worktree := true,
    run_by_default := false, resources := some [.bare "r"], shutdown_grace_period_s := 60,
    cache := .byCommit, depends_on := [], error_exit_codes := [],
    separate_outputs := false }

/-- A config declaring no resources but containing `c5Test`. -/
def c5Config : Config :=
  { num_worktrees := 8, resources := none, tests := [c5Test] }

/-- Like `c5Test` but run by default, so it survives filtering. -/
def c5wTest : Test :=
  { name := "t", command := .raw ["x"], requires_worktree := true,
    run_by_default := true, resources := some [.bare "r"], shutdown_grace_period_s := 60,
    cache := .byCommit, depends_on := [], error_exit_codes := [],
    separate_outputs := false }

/-- A config declaring no resources but containing `c5wTest`. -/
def c5wConfig : Config :=
  { num_worktrees := 8, resources := none, tests := [c5wTest] }

/-- A test whose `error_exit_codes` contains 0. -/
def c6Test : Test :=
  { name := "t", command := .raw ["x"], requires_worktree := true,
    run_by_default := true, resources := none, shutdown_grace_period_s := 60,
    cache := .byCommit, depends_on := [], error_exit_codes := [0],
    separate_outputs := false }

/-- A test whose command is the empty Raw argv vector. -/
def c9Test : Test :=
  { name := "t", command := .raw [], requires_worktree := true,
    run_by_default := true, resources := none, shutdown_grace_period_s := 60,
    cache := .byCommit, depends_on := [], error_exit_codes := [],
    separate_outputs := false }

/-- Sample rev-list stdout with two commit lines. -/
def exStdout : String := "a\nb\n"

/-- Sample first line of a graph chunk. -/
def exGraphLine : String := "| * "

/-- A test excluded by default. -/
def c10Test : Test :=
  { name := "t", command := .raw ["x"], requires_worktree := true,
    run_by_default := false, resources := none, shutdown_grace_period_s := 60,
    cache := .byCommit, depends_on := [], error_exit_codes := [],
    separate_outputs := false }

/-! ## Helper lemmas -/

/-- Accumulating appends in a left fold flatten into one concatenation. -/
theorem foldl_append_flatten (f : α → List β) (l : List α) (init : List β) :
    l.foldl (fun st a => st ++ f a) init = init ++ (l.map f).flatten := by
  induction l generalizing init with
  | nil => simp
  | cons a rest ih => simp [ih, List.append_assoc]

/-- The digest input stream, unrolled: own fields then the dependency hashes
in `depends_on` declaration order. -/
theorem configHashInput_eq (t : Test) (depHash : String → String) :
    configHashInput t depHash
      = testFieldBytes t ++ (t.depends_on.map (fun d => encodeStr (depHash d))).flatten := by
  simpa [configHashInput] using
    foldl_append_flatten (fun d => encodeStr (depHash d)) t.depends_on (testFieldBytes t)

/-- When `Test::parse` succeeds, the parsed test carries exactly the
`needs_resources` map and the digest of the modelled input stream. -/
theorem parse_ok_fields {t : Test} {deps : String → Option String} {p : ParsedTest}
    (h : t.parse deps = ParseResult.ok p) :
    p.needs_resources = t.needsResources
      ∧ p.config_hash = hexDigest (configHashInput t (fun d => (deps d).getD "")) := by
  simp only [Test.parse] at h
  split at h
  · cases h
  · split at h
    · cases h
    · split at h
      · cases h
      · split at h
        · injection h with h
          subst h
          exact ⟨rfl, rfl⟩
        · cases h

/-! ## Claim C1 -/

/-- C1, as stated, is false: the code appends dependency hashes in
`depends_on` declaration order, not dependency-name-sorted order. With the
dependencies declared as ["b", "a"], the byte stream fed to the digest
differs from the spec's name-sorted stream. -/
theorem c1_counterexample :
    configHashInput exTest1 exDepHash1 ≠ specConfigHashInput exTest1 exDepHash1 := by
  decide

/-- C1 (amended): for every test configuration that parses successfully, its
`config_hash` is the (hex-encoded SHA3-256) digest of the byte stream made of
the test's own fields hashed in a canonical order followed by the
already-computed `config_hash` of each of its dependencies in the order the
dependencies appear in `depends_on`. -/
theorem c1_theorem (t : Test) (deps : String → Option String) (p : ParsedTest)
    (h : t.parse deps = ParseResult.ok p) :
    p.config_hash
      = hexDigest (testFieldBytes t
          ++ (t.depends_on.map (fun d => encodeStr ((deps d).getD ""))).flatten) := by
  rw [(parse_ok_fields h).2, configHashInput_eq]

set_option maxRecDepth 16384 in
/-- C1 witness: the amended statement evaluated on `exTest1`. -/
theorem c1_witness :
    exTest1.parse exDeps1 = ParseResult.ok exParsed1
  ∧ exParsed1.config_hash
      = hexDigest (testFieldBytes exTest1
          ++ (exTest1.depends_on.map (fun d => encodeStr ((exDeps1 d).getD ""))).flatten) :=
  ⟨by decide, c1_theorem exTest1 exDeps1 exParsed1 (by decide)⟩

/-! ## Claim C2 -/

/-- C2: `rev_list` returns the empty commit list on the distinguished exit
code 128, the stdout lines as commit hashes on exit 0, and an error for any
other exit code. -/
theorem c2_theorem (stdout : String) :
    revList (some 128) stdout = Except.ok []
  ∧ revList (some 0) stdout = Except.ok ((rustLines stdout).map CommitHash.mk)
  ∧ ∀ c : Int, c ≠ 128 → c ≠ 0 → ∃ msg, revList (some c) stdout = Except.error msg := by
  refine ⟨by simp [revList], by simp [revList], fun c h128 h0 => ?_⟩
  exact ⟨"failed with exit code", by simp [revList, h128, h0]⟩

/-- C2 witness: the three cases at a concrete stdout and exit code 1. -/
theorem c2_witness :
    revList (some 128) "a\nb\n" = Except.ok []
  ∧ revList (some 0) "a\nb\n" = Except.ok ((rustLines "a\nb\n").map CommitHash.mk)
  ∧ ∃ msg, revList (some 1) "a\nb\n" = Except.error msg :=
  ⟨(c2_theorem exStdout).1, (c2_theorem exStdout).2.1,
   (c2_theorem exStdout).2.2 1 (by decide) (by decide)⟩

/-! ## Claim C4 -/

/-- C4: for every configured user resource, the pool's token values are
exactly the explicitly listed strings when tokens are given explicitly, and
otherwise the auto-numbered strings name-0 through name-(n-1) where n is the
declared count (1 for the bare shorthand form). -/
theorem c4_theorem (cfg : Config) :
    cfg.parseResourceTokens
      = (cfg.resources.getD []).map
          (fun r => (ResourceKey.userToken r.name, specResourceTokens r)) := by
  unfold Config.parseResourceTokens
  apply List.map_congr_left
  intro r _
  cases r with
  | bare n =>
    show (ResourceKey.userToken n, [n ++ "-" ++ toString 0]) = (ResourceKey.userToken n, [n ++ "-0"])
    rw [String.append_assoc]
    rfl
  | counted n c => rfl
  | explicit n tokens => rfl

/-! ## Claim C6 -/

/-- C6: a test whose `error_exit_codes` contains 0 fails to parse (given its
dependencies are present in the parsed DAG, so the hashing step does not
panic first). -/
theorem c6_theorem (t : Test) (deps : String → Option String)
    (hdeps : ∀ d ∈ t.depends_on, (deps d).isSome)
    (h0 : 0 ∈ t.error_exit_codes) :
    ∃ msg, t.parse deps = ParseResult.error msg := by
  simp only [Test.parse]
  split
  · exact ⟨_, rfl⟩
  · split
    · rename_i hany
      rcases List.any_eq_true.mp hany with ⟨d, hd, hnone⟩
      have := hdeps d hd
      simp [Option.isNone_iff_eq_none.mp (by simpa using hnone)] at this
    · exact ⟨_, rfl⟩

/-- C6 witness: a concrete test with `error_exit_codes = [0]`. -/
theorem c6_witness : ∃ msg, c6Test.parse noDeps = ParseResult.error msg :=
  c6_theorem c6Test noDeps (by simp [c6Test]) (by decide)

/-! ## Claim C9 -/

/-- C9: for a non-empty Raw argv, `Command::program` is the first element and
`Command::args` the rest in order; for the empty vector both panic (modelled
as `none`); and a test whose command is the empty Raw vector and which passes
every validation check makes `Test::parse` panic rather than return a
configuration error — parsing never rejects the empty vector. -/
theorem c9_theorem :
    (∀ (a : String) (rest : List String),
        Command.program (.raw (a :: rest)) = some a
      ∧ Command.args (.raw (a :: rest)) = some rest)
  ∧ Command.program (.raw []) = none
  ∧ Command.args (.raw []) = none
  ∧ ∀ (t : Test) (deps : String → Option String),
      t.command = .raw [] →
      t.resourceNames.Nodup →
      (∀ d ∈ t.depends_on, (deps d).isSome) →
      0 ∉ t.error_exit_codes →
      t.parse deps = ParseResult.panic := by
  refine ⟨fun a rest => ⟨rfl, rfl⟩, rfl, rfl, fun t deps hcmd hnodup hdeps h0 => ?_⟩
  simp only [Test.parse]
  rw [if_neg (by simpa using hnodup)]
  rw [if_neg ?hany]
  case hany =>
    simp only [List.any_eq_true, not_exists]
    intro d
    rw [not_and]
    intro hd
    simp [Option.isSome_iff_ne_none.mp (hdeps d hd)]
  rw [if_neg h0, hcmd]
  rfl

/-- C9 witness: a concrete test with an empty Raw argv panics in parse. -/
theorem c9_witness :
    Command.program (.raw ["x", "y"]) = some "x"
  ∧ Command.args (.raw ["x", "y"]) = some ["y"]
  ∧ c9Test.parse noDeps = ParseResult.panic :=
  ⟨(c9_theorem.1 "x" ["y"]).1, (c9_theorem.1 "x" ["y"]).2,
   c9_theorem.2.2.2 c9Test noDeps rfl (by decide) (by simp [c9Test]) (by decide)⟩

/-! ## Claim C3 -/

/-- The select loop never disturbs the already-emitted prefix: folding any
further inputs only appends. -/
theorem watchFold_head (resolve : Nat → List CommitHash) (inputs : List WatchInput)
    (outs : List (List CommitHash)) (timer : Option Nat) (h : outs ≠ []) :
    (inputs.foldl (watchFold resolve) (outs, timer)).1.head? = outs.head? := by
  induction inputs generalizing outs timer with
  | nil => rfl
  | cons inp rest ih =>
    rw [List.foldl_cons]
    rcases outs with _ | ⟨o, os⟩
    · exact absurd rfl h
    · cases inp with
      | fsEvent =>
        rw [show watchFold resolve (o :: os, timer) WatchInput.fsEvent
              = (o :: os, (watchStep timer WatchInput.fsEvent).1) from rfl]
        exact ih (o :: os) _ h
      | timerFire =>
        rw [show watchFold resolve (o :: os, timer) WatchInput.timerFire
              = (o :: os ++ [resolve (o :: os).length], none) from rfl]
        rw [ih _ _ (by simp)]
        rfl

/-- C3: the revision-watch stream first emits the initial resolution of the
range; an event arriving with no timer armed arms a one-second timer without
emitting; an event arriving while the timer is armed is absorbed, leaving the
timer and the emitted elements unchanged; and when the armed timer expires the
stream re-resolves the range and emits exactly one new element, the timer
returning to the terminated state. -/
theorem c3_theorem (resolve : Nat → List CommitHash) (inputs : List WatchInput) (d : Nat) :
    (watchRun resolve inputs).1.head? = some (resolve 0)
  ∧ watchStep none WatchInput.fsEvent = (some 1, false)
  ∧ watchStep (some d) WatchInput.fsEvent = (some d, false)
  ∧ ((watchRun resolve inputs).2 = some d →
      (watchRun resolve (inputs ++ [WatchInput.timerFire])).1
          = (watchRun resolve inputs).1 ++ [resolve (watchRun resolve inputs).1.length]
        ∧ (watchRun resolve (inputs ++ [WatchInput.timerFire])).2 = none) := by
  refine ⟨watchFold_head resolve inputs [resolve 0] none (by simp), rfl, rfl, fun _ => ?_⟩
  rw [watchRun, List.foldl_append]
  exact ⟨rfl, rfl⟩

/-- C3 witness: one absorbed event then a timer expiry, on a concrete trace. -/
theorem c3_witness :
    (watchRun constResolve ([WatchInput.fsEvent] ++ [WatchInput.timerFire])).1
      = (watchRun constResolve [WatchInput.fsEvent]).1
          ++ [constResolve (watchRun constResolve [WatchInput.fsEvent]).1.length] :=
  ((c3_theorem constResolve [WatchInput.fsEvent] 1).2.2.2 (by decide)).1

/-! ## Claim C7 -/

/-- C7: stretching a graph chunk against its info lines. When the info lines
outnumber the graph lines, copies of the first line with commit-node and
diagonal characters replaced by vertical bars are inserted after the first
line and the info lines are untouched; otherwise the info lines are padded
with empty lines; either way the two line counts end up equal. -/
theorem c7_theorem (c : String) (cs info : List String) :
    (info.length > cs.length + 1 →
        (stretchChunk (c :: cs) info).1
            = c :: (List.replicate (info.length - (cs.length + 1)) (graphComponentReplace c) ++ cs)
          ∧ (stretchChunk (c :: cs) info).2 = info)
  ∧ (info.length ≤ cs.length + 1 →
        (stretchChunk (c :: cs) info).2
            = info ++ List.replicate (cs.length + 1 - info.length) ""
          ∧ (stretchChunk (c :: cs) info).1 = c :: cs)
  ∧ (stretchChunk (c :: cs) info).2.length = (stretchChunk (c :: cs) info).1.length := by
  simp only [stretchChunk, List.length_cons]
  split
  · rename_i hpos
    have hgt : info.length > cs.length + 1 := by omega
    have htn : ((info.length : Int) - ((cs.length + 1 : Nat) : Int)).toNat
        = info.length - (cs.length + 1) := by omega
    refine ⟨fun _ => ⟨by rw [htn], rfl⟩, fun hle => absurd hgt (by omega), ?_⟩
    simp [htn]
    omega
  · rename_i hnpos
    have hle : info.length ≤ cs.length + 1 := by omega
    have htn : (-((info.length : Int) - ((cs.length + 1 : Nat) : Int))).toNat
        = cs.length + 1 - info.length := by omega
    refine ⟨fun hgt => absurd hle (by omega), fun _ => ⟨by rw [htn], rfl⟩, ?_⟩
    simp [htn]
    omega

/-- C7 witness: a two-line chunk stretched to meet four info lines, and a
four-line chunk padding a two-line info list. -/
theorem c7_witness :
    ((stretchChunk ["| * ", "| |"] ["a", "b", "c", ""]).1
        = "| * " :: (List.replicate (["a", "b", "c", ""].length - (["| |"].length + 1))
            (graphComponentReplace "| * ") ++ ["| |"])
      ∧ (stretchChunk ["| * ", "| |"] ["a", "b", "c", ""]).2 = ["a", "b", "c", ""])
  ∧ ((stretchChunk ["| * ", "| |", "|/", "|"] ["a", ""]).2
        = ["a", ""] ++ List.replicate (["| |", "|/", "|"].length + 1 - ["a", ""].length) ""
      ∧ (stretchChunk ["| * ", "| |", "|/", "|"] ["a", ""]).1 = ["| * ", "| |", "|/", "|"]) :=
  ⟨(c7_theorem exGraphLine ["| |"] ["a", "b", "c", ""]).1 (by decide),
   (c7_theorem exGraphLine ["| |", "|/", "|"] ["a", ""]).2.1 (by decide)⟩

/-! ## Claim C8 -/

/-- C8: on a repaint with a non-zero previous line count the tracker first
emits cursor-previous-line by that count then erase-display and then the
fresh frame; with a zero previous count it emits the frame only, with no
control sequences at all; the frame contains one written line per buffer
line, and the recorded count for the next repaint is that buffer line count.
-/
theorem c8_theorem (n : Nat) (lines : List String) (statusFor : Nat → Option String) :
    (n ≠ 0 → (repaint n lines statusFor).1
        = TermOut.cpl n :: TermOut.ed :: (render lines statusFor).1)
  ∧ (repaint 0 lines statusFor).1 = (render lines statusFor).1
  ∧ (∀ o ∈ (repaint 0 lines statusFor).1, ∃ s, o = TermOut.line s)
  ∧ (render lines statusFor).1.length = lines.length
  ∧ (repaint n lines statusFor).2 = lines.length := by
  refine ⟨fun hn => by simp [repaint, hn], by simp [repaint], ?_, by simp [render], rfl⟩
  intro o ho
  simp only [repaint, ne_eq, not_true_eq_false, if_false, List.nil_append, render,
    List.mem_map] at ho
  rcases ho with ⟨p, _, rfl⟩
  exact ⟨_, rfl⟩

/-- C8 witness: a repaint with previous count 3 and a one-line buffer. -/
theorem c8_witness :
    (repaint 3 ["a"] noStatus).1 = TermOut.cpl 3 :: TermOut.ed :: (render ["a"] noStatus).1
  ∧ (repaint 0 ["a"] noStatus).1 = (render ["a"] noStatus).1
  ∧ (repaint 3 ["a"] noStatus).2 = ["a"].length :=
  ⟨(c8_theorem 3 ["a"] noStatus).1 (by decide), (c8_theorem 3 ["a"] noStatus).2.1,
   (c8_theorem 3 ["a"] noStatus).2.2.2.2⟩

/-! ## Claim C10 -/

/-- C10: a test with `run_by_default = false` is excluded unless its name
matches an `only_tests` regex; with a non-empty `only_tests` list, a test is a
candidate exactly when it matches one of those regexes (regardless of
`run_by_default`) and no `skip_tests` regex; and a `skip_tests` match always
excludes. -/
theorem c10_theorem (onlyTests skipTests : List (String → Bool)) (t : Test) :
    (t.run_by_default = false → (∀ r ∈ onlyTests, r t.name = false) →
        testIncluded onlyTests skipTests t = false)
  ∧ (onlyTests ≠ [] →
        (testIncluded onlyTests skipTests t = true
          ↔ (∃ r ∈ onlyTests, r t.name = true) ∧ ∀ r ∈ skipTests, r t.name = false))
  ∧ ((∃ r ∈ skipTests, r t.name = true) → testIncluded onlyTests skipTests t = false) := by
  refine ⟨fun hdef honly => ?_, fun hne => ?_, fun hskip => ?_⟩
  · rcases honlyE : onlyTests.isEmpty with _ | _
    · simp only [testIncluded, honlyE, Bool.not_false, if_true, Bool.and_eq_false_imp]
      intro hany
      rcases List.any_eq_true.mp hany with ⟨r, hr, hrt⟩
      rw [honly r hr] at hrt
      cases hrt
    · simp [testIncluded, honlyE, hdef]
  · have hne2 : onlyTests.isEmpty = false := by
      simpa [List.isEmpty_iff] using hne
    simp [testIncluded, hne2, List.any_eq_true]
  · rcases hskip with ⟨r, hr, hrt⟩
    have hany : skipTests.any (fun r2 => r2 t.name) = true := List.any_eq_true.mpr ⟨r, hr, hrt⟩
    simp [testIncluded, hany]

/-! ## Claim C5 -/

/-- A successful topological sort contains every input element. -/
theorem topoRounds_mem {fuel : Nat} {emitted remaining out : List Test}
    (h : topoRounds fuel emitted remaining = some out) (t : Test)
    (ht : t ∈ emitted ∨ t ∈ remaining) : t ∈ out := by
  induction fuel generalizing emitted remaining with
  | zero =>
    simp only [topoRounds] at h
    split at h
    · rename_i hempty
      injection h with h
      subst h
      rcases ht with h1 | h2
      · exact h1
      · rw [List.isEmpty_iff.mp hempty] at h2
        cases h2
    · cases h
  | succ fuel ih =>
    simp only [topoRounds] at h
    split at h
    · rename_i hempty
      injection h with h
      subst h
      rcases ht with h1 | h2
      · exact h1
      · rw [List.isEmpty_iff.mp hempty] at h2
        cases h2
    · split at h
      · cases h
      · refine ih h ?_
        rcases ht with h1 | h2
        · exact Or.inl (List.mem_append_left _ h1)
        · cases hready : depsReady emitted t with
          | true =>
            exact Or.inl (List.mem_append_right _ (List.mem_filter.mpr ⟨h2, hready⟩))
          | false =>
            exact Or.inr (List.mem_filter.mpr ⟨h2, by simp [hready]⟩)

/-- A successful `Dag::new` ordering contains every input test. -/
theorem dagNew_ok_mem {tests order : List Test} (h : dagNew tests = ParseResult.ok order) :
    ∀ t ∈ tests, t ∈ order := by
  unfold dagNew at h
  split at h
  · cases h
  · split at h
    · cases h
    · split at h
      · rename_i order2 heq
        injection h with h
        subst h
        exact fun t ht => topoRounds_mem heq t (Or.inr ht)
      · cases h

/-- The parse fold is stuck once an error occurred. -/
theorem foldl_parseFoldStep_error (order : List Test) (e : String) :
    order.foldl parseFoldStep (ParseResult.error e) = ParseResult.error e := by
  induction order with
  | nil => rfl
  | cons t rest ih => exact ih

/-- The parse fold is stuck once a panic occurred. -/
theorem foldl_parseFoldStep_panic (order : List Test) :
    order.foldl parseFoldStep ParseResult.panic = ParseResult.panic := by
  induction order with
  | nil => rfl
  | cons t rest ih => exact ih

/-- A successful parse fold keeps every accumulated test and produces, for
every input test, a parsed test carrying that test's `needs_resources`. -/
theorem parseFold_ok_mem {order : List Test} {acc parsed : List ParsedTest}
    (h : order.foldl parseFoldStep (ParseResult.ok acc) = ParseResult.ok parsed) :
    (∀ q ∈ acc, q ∈ parsed)
  ∧ ∀ t ∈ order, ∃ p ∈ parsed, p.needs_resources = t.needsResources := by
  induction order generalizing acc with
  | nil =>
    simp only [List.foldl_nil] at h
    injection h with h
    subst h
    exact ⟨fun q hq => hq, by simp⟩
  | cons t rest ih =>
    rw [List.foldl_cons] at h
    cases hp : t.parse
        (fun d => (acc.find? (fun p => p.name == d)).map (·.config_hash)) with
    | ok p =>
      have hstep : parseFoldStep (ParseResult.ok acc) t = ParseResult.ok (acc ++ [p]) := by
        simp [parseFoldStep, hp]
      rw [hstep] at h
      obtain ⟨hsub, hrest⟩ := ih h
      refine ⟨fun q hq => hsub q (List.mem_append_left _ hq), ?_⟩
      intro t2 ht2
      rcases List.mem_cons.mp ht2 with heq | hmem
      · subst heq
        exact ⟨p, hsub p (List.mem_append_right _ (List.mem_singleton.mpr rfl)),
               (parse_ok_fields hp).1⟩
      · exact hrest t2 hmem
    | error e =>
      have hstep : parseFoldStep (ParseResult.ok acc) t = ParseResult.error e := by
        simp [parseFoldStep, hp]
      rw [hstep, foldl_parseFoldStep_error] at h
      cases h
    | panic =>
      have hstep : parseFoldStep (ParseResult.ok acc) t = ParseResult.panic := by
        simp [parseFoldStep, hp]
      rw [hstep, foldl_parseFoldStep_panic] at h
      cases h

/-- Every listed resource contributes its `UserToken` key to the test's
`needs_resources`. -/
theorem needsResources_userToken_mem {t : Test} {r : Resource} (hr : r ∈ t.resourceList) :
    (ResourceKey.userToken r.name, r.count) ∈ t.needsResources :=
  List.mem_append_left _ (List.mem_map_of_mem _ hr)

/-- Every key of `parse_resource_tokens` is the `UserToken` of a declared
resource's name. -/
theorem parseResourceTokens_keys {cfg : Config} {kv : ResourceKey × List String}
    (h : kv ∈ cfg.parseResourceTokens) :
    ∃ r ∈ cfg.resources.getD [], kv.1 = ResourceKey.userToken r.name := by
  unfold Config.parseResourceTokens at h
  rcases List.mem_map.mp h with ⟨r, hr, hk⟩
  exact ⟨r, hr, by rw [← hk]⟩

/-- C5, as stated, is false: a test excluded from the DAG by filtering (here
by `run_by_default = false` with no `--tests` filter) can reference an
undeclared user resource and configuration parsing still succeeds. -/
theorem c5_counterexample :
    (c5Config.tests.any (fun t => (t.resourceList.map Resource.name).any
        (fun n => !(((c5Config.resources.getD []).map Resource.name).contains n)))) = true
  ∧ c5Config.parseTests c5Config.parseResourceTokens [] [] = ParseResult.ok [] := by
  constructor
  · decide
  · decide

/-- C5 (amended): for every configuration in which some test that is included
in the parsed DAG (it survives the run_by_default/only_tests/skip_tests
filter) names a user resource that is not declared in the top-level resources
section, configuration parsing never succeeds — the undefined name is caught
at startup, after DAG construction, rather than surfacing at
resource-acquire time. -/
theorem c5_theorem (cfg : Config) (skipTests onlyTests : List (String → Bool))
    (t : Test) (r : Resource) (ps : List ParsedTest)
    (ht : t ∈ cfg.tests)
    (hinc : testIncluded onlyTests skipTests t = true)
    (hr : r ∈ t.resourceList)
    (hundef : ∀ rd ∈ cfg.resources.getD [], rd.name ≠ r.name) :
    cfg.parseTests cfg.parseResourceTokens skipTests onlyTests ≠ ParseResult.ok ps := by
  intro hok
  simp only [Config.parseTests] at hok
  cases hdag : dagNew (cfg.tests.filter (testIncluded onlyTests skipTests)) with
  | error e => rw [hdag] at hok; cases hok
  | panic => rw [hdag] at hok; cases hok
  | ok order =>
    rw [hdag] at hok
    simp only at hok
    cases hpf : parseFold order with
    | error e => rw [hpf] at hok; cases hok
    | panic => rw [hpf] at hok; cases hok
    | ok parsed =>
      rw [hpf] at hok
      rw [parseFold] at hpf
      have htord : t ∈ order :=
        dagNew_ok_mem hdag t (List.mem_filter.mpr ⟨ht, hinc⟩)
      obtain ⟨p, hpmem, hpneeds⟩ := (parseFold_ok_mem hpf).2 t htord
      have hnotok : (cfg.parseResourceTokens.any
          (fun rt => decide (rt.1 = ResourceKey.userToken r.name))) = false := by
        rcases hany : cfg.parseResourceTokens.any
            (fun rt => decide (rt.1 = ResourceKey.userToken r.name)) with _ | _
        · rfl
        · exfalso
          rcases List.any_eq_true.mp hany with ⟨kv, hkv, hbeq⟩
          rcases parseResourceTokens_keys hkv with ⟨rd, hrd, hk⟩
          have : ResourceKey.userToken rd.name = ResourceKey.userToken r.name := by
            rw [← hk]
            exact of_decide_eq_true hbeq
          exact hundef rd hrd (by injection this)
      simp only at hok
      have hcond : (parsed.any (fun p2 => p2.needs_resources.any (fun kv =>
          match kv.1 with
          | ResourceKey.userToken _ =>
            !(cfg.parseResourceTokens.any (fun rt => decide (rt.1 = kv.1)))
          | ResourceKey.worktree => false))) = true := by
        refine List.any_eq_true.mpr ⟨p, hpmem, List.any_eq_true.mpr
          ⟨(ResourceKey.userToken r.name, r.count), ?_, ?_⟩⟩
        · rw [hpneeds]
          exact needsResources_userToken_mem hr
        · simpa using hnotok
      rw [if_pos hcond] at hok
      cases hok

/-- C5 witness: the amended statement on a concrete config whose only (run by
default) test references the undeclared resource "r". -/
theorem c5_witness :
    c5wTest ∈ c5wConfig.tests
  ∧ testIncluded [] [] c5wTest = true
  ∧ Resource.bare "r" ∈ c5wTest.resourceList
  ∧ c5wConfig.parseTests c5wConfig.parseResourceTokens [] [] ≠ ParseResult.ok [] :=
  ⟨by decide, by decide, by decide,
   c5_theorem c5wConfig [] [] c5wTest (.bare "r") [] (by decide) (by decide) (by decide)
     (by simp [c5wConfig])⟩

/-- C10 witness: a non-default test: excluded with no filters, included when
an `only_tests` regex matches it, excluded again by a `skip_tests` match. -/
theorem c10_witness :
    testIncluded [] [] c10Test = false
  ∧ (testIncluded [fun _ => true] [] c10Test = true
      ↔ (∃ r ∈ [fun (_ : String) => true], r c10Test.name = true)
        ∧ ∀ r ∈ ([] : List (String → Bool)), r c10Test.name = false)
  ∧ testIncluded [fun _ => true] [fun _ => true] c10Test = false :=
  ⟨(c10_theorem [] [] c10Test).1 (by decide) (by simp),
   (c10_theorem [fun _ => true] [] c10Test).2.1 (by simp),
   (c10_theorem [fun _ => true] [fun _ => true] c10Test).2.2
     ⟨fun _ => true, by simp⟩⟩

end Limmat
